/-
Verification of the level2-reviewtron audit engine against its specification.

This file shallowly embeds the JavaScript audit pipeline
(`backend/controllers/auditController.js`, `contentRecencyChecker.js`,
`plagiarismChecker.js`, the `sqlGenerator` modules and `utils/bannedWords.js`)
as executable Lean definitions and proves, or refutes, the specified
properties of the policy filter, redirect inspector, recency evaluator,
plagiarism checker, result aggregation, rejection-code lookup and the
audit entry point.

Effectful collaborators (HTTP probes, page fetches, search calls) are
modelled as explicit inputs: each network-dependent step takes the outcome
of its remote call as a parameter, and the surrounding control flow is
translated from the source.
-/
import Mathlib

set_option autoImplicit false

/-! ## Check statuses and results

The source represents statuses as the strings `"pass"`, `"fail"`,
`"review"`, `"error"` (plus the initial `"pending"` placeholder set by
`analyzeURL`).  We embed them as an inductive type. -/

inductive Status where
  | pass
  | fail
  | review
  | error
  | pending
  deriving DecidableEq, Repr

/-- A check result object as produced by the individual checks in
`auditController.js`: a status, a `reason` string, a `details` string, and
the optional extra fields (`category` for the banned-words check,
`redirectUrl` for the redirect check) that some checks attach. -/
structure CheckResult where
  status : Status
  reason : String
  details : String
  category : Option String := none
  redirectUrl : Option String := none
  deriving DecidableEq, Repr

/-! ## String helpers

JavaScript `String.prototype.includes` is substring containment; we embed
strings as `String` and implement containment over their character lists
(`a.includes(b)` = `subOccurs b.toList a.toList`). -/

/-- `charsStartWith sub l` : `sub` is an initial segment of `l`. -/
def charsStartWith : List Char → List Char → Bool
  | [], _ => true
  | _ :: _, [] => false
  | a :: as, b :: bs => a == b && charsStartWith as bs

/-- `subOccurs sub l` : `sub` occurs contiguously inside `l`.
Mirrors JavaScript `includes` (the empty string occurs in every string). -/
def subOccurs : List Char → List Char → Bool
  | sub, [] => sub.isEmpty
  | sub, c :: cs => charsStartWith sub (c :: cs) || subOccurs sub cs

/-- JavaScript `haystack.includes(needle)`. -/
def strContains (haystack needle : String) : Bool :=
  subOccurs needle.toList haystack.toList

/-- JavaScript `toLowerCase` on the ASCII range (the inputs the audited
code lowercases — hostnames, paths, URLs — are ASCII). -/
def jsToLower (c : Char) : Char :=
  if 65 ≤ c.toNat && c.toNat ≤ 90 then Char.ofNat (c.toNat + 32) else c

/-- `s.toLowerCase()` character by character. -/
def lowerString (s : String) : String :=
  ⟨s.data.map jsToLower⟩

/-- JavaScript `String.prototype.split` on a single separator character
(used for `hostname.split('.')`). -/
def splitChar (sep : Char) : List Char → List Char → List (List Char)
  | acc, [] => [acc.reverse]
  | acc, c :: cs =>
    if c = sep then acc.reverse :: splitChar sep [] cs
    else splitChar sep (c :: acc) cs

/-! ## PolicyFilter: banned words (`utils/bannedWords.js`, `checkBannedWords`)

`bannedWords.js` exports an object whose keys are iterated by
`Object.entries` in declaration order.  The `bannedTLDs` key is declared
last and is skipped by the word loop (it is checked separately, first). -/

/-- The banned-term categories of `utils/bannedWords.js`, in declaration
order, excluding the `bannedTLDs` key which `checkBannedWords` skips in
its word loop. -/
def bannedCategories : List (String × List String) :=
  [ ("adult",
      ["porn", "xxx", "adult", "sex", "nude", "naked", "pussy", "dick",
       "cock", "tits", "boobs", "ass", "anal", "milf", "mature"]),
    ("drugs",
      ["cannabis", "marijuana", "weed", "cocaine", "heroin", "meth",
       "mdma", "ecstasy", "lsd", "shrooms", "psychedelics", "drugs"]),
    ("gambling",
      ["casino", "poker", "bet", "betting", "slots", "gambling",
       "lottery", "roulette", "blackjack"]),
    ("weapons",
      ["guns", "firearms", "weapons", "ammo", "ammunition",
       "rifle", "pistol", "shotgun"]),
    ("punycode", ["xn--"]),
    ("malicious",
      ["phishing", "malware", "trojan", "virus", "hack",
       "crack", "keygen", "warez", "torrent", "pirate"]) ]

/-- The `bannedTLDs` list of `utils/bannedWords.js`. -/
def bannedTLDs : List String :=
  ["af", "ir", "iq", "lb", "ly", "ps", "sy", "ye",
   "bd", "kh", "id", "la", "my", "mm", "kp", "pk", "th", "vn",
   "bi", "cf", "cd", "lr", "ma", "so", "ss", "sd", "tn", "zw",
   "bg", "cy", "mt", "rs", "ru",
   "cu", "ni", "ve"]

/-- The hostname and pathname components produced by `new URL(urlString)`.
URL parsing itself is platform code; a parse failure is modelled as `none`
at the call sites. -/
structure ParsedURL where
  hostname : String
  pathname : String
  deriving DecidableEq, Repr

/-- The inner word loop of `checkBannedWords`: for each word of a category
(in order), the hostname is tested, then the pathname, then the full URL;
the first hit returns the corresponding fail result. -/
def checkWordList (hostname pathname fullUrl category : String) :
    List String → Option CheckResult
  | [] => none
  | word :: rest =>
    if strContains hostname word then
      some { status := .fail,
             reason := "Banned content detected (" ++ category ++ ")",
             details := "The domain contains banned term: " ++ word,
             category := some category }
    else if strContains pathname word then
      some { status := .fail,
             reason := "Banned content detected (" ++ category ++ ")",
             details := "The URL path contains banned term: " ++ word,
             category := some category }
    else if strContains fullUrl word then
      some { status := .fail,
             reason := "Banned content detected (" ++ category ++ ")",
             details := "The URL contains banned term: " ++ word,
             category := some category }
    else checkWordList hostname pathname fullUrl category rest

/-- The outer category loop of `checkBannedWords` over
`Object.entries(bannedWords)` in declaration order. -/
def checkCategories (hostname pathname fullUrl : String) :
    List (String × List String) → Option CheckResult
  | [] => none
  | (category, wordList) :: rest =>
    match checkWordList hostname pathname fullUrl category wordList with
    | some r => some r
    | none => checkCategories hostname pathname fullUrl rest

/-- `checkBannedWords` from `auditController.js`: on a parse failure the
exception is swallowed and `null` is returned; otherwise the banned-TLD
set is tested against the last `.`-separated label of the hostname, then
the categorized word lists are scanned. -/
def checkBannedWords (parsed : Option ParsedURL) (urlString : String) :
    Option CheckResult :=
  match parsed with
  | none => none
  | some p =>
    let hostname := lowerString p.hostname
    let pathname := lowerString p.pathname
    let fullUrl := lowerString urlString
    let tld : String := ⟨(splitChar '.' [] hostname.data).getLastD []⟩
    if bannedTLDs.contains tld then
      some { status := .fail,
             reason := "Banned TLD detected",
             details := "The domain uses a banned top-level domain: ." ++ tld,
             category := some "bannedTLD" }
    else
      checkCategories hostname pathname fullUrl bannedCategories

/-! ## RedirectInspector (`checkRedirect` in `auditController.js`)

The HEAD probe (`axios.head` with `maxRedirects: 0` and all status codes
accepted) either yields a response (status code plus optional `Location`
header) or throws a network-level error; both outcomes are inputs here.
Resolving a `Location` value to a hostname uses the platform `new URL`
constructor (relative locations are resolved against the original URL);
it is modelled by the `locHostname` input, with `none` standing for a
constructor throw on an unresolvable location. -/

inductive ProbeOutcome where
  | response (statusCode : Nat) (location : Option String)
  | netError (message : String)
  deriving DecidableEq, Repr

/-- `checkRedirect` from `auditController.js`, given the (lowercased by
the caller below) original hostname, the redirect-location resolver and
the probe outcome. -/
def checkRedirect (originalHostname : String)
    (locHostname : String → Option String) (probe : ProbeOutcome) :
    Option CheckResult :=
  match probe with
  | .netError msg =>
    some { status := .error, reason := "Redirect check failed", details := msg }
  | .response statusCode location =>
    if 300 ≤ statusCode ∧ statusCode < 400 then
      match location with
      | none =>
        some { status := .review,
               reason := "Redirect without destination",
               details := "The URL redirects (" ++ toString statusCode ++
                 ") but no destination was specified" }
      | some loc =>
        match locHostname loc with
        | none =>
          some { status := .review,
                 reason := "Invalid redirect",
                 details := "The URL redirects to an invalid location: " ++ loc }
        | some rawHost =>
          let redirectHostname := lowerString rawHost
          if redirectHostname ≠ originalHostname then
            some { status := .fail,
                   reason := "External redirect",
                   details := "The URL redirects to an external domain: " ++
                     redirectHostname,
                   redirectUrl := some loc }
          else none
    else none

/-! ## CheckOrchestrator (`analyzeURL` in `auditController.js`)

`analyzeURL` builds a results object `{url, timestamp, status, checks}`.
Phase 0 runs `checkBannedWords` and returns immediately on a hit.  Phase 1
runs `checkRedirect`, returns immediately on `fail`, and records any other
non-null result under `checks.redirect`.  Phase 2 runs the recency check
(raced against a 30 s timer; a timeout or thrown error is caught and
turned into an `error` result) and stores its result on the field
`results.contentRecency` — NOT inside `results.checks`.  Phase 3 runs the
four remaining checks concurrently (each wrapped so that an exception or
timeout becomes an `error` result) and records them under `checks` in
declaration order.  Finally the overall status is recomputed from
`Object.values(results.checks)` alone, overwriting any status set in
phase 2.

The database-storage step at the end of `analyzeURL` only attaches a
`databaseStorage` field and never changes status or checks; it is omitted
from the embedding. -/

/-- The audit report assembled by `analyzeURL` (timestamp and the
`databaseStorage` field omitted).  `checks` is an insertion-ordered
association list; `contentRecency` is the separate field used by phase 2. -/
structure AuditReport where
  url : String
  status : Status
  checks : List (String × CheckResult)
  contentRecency : Option CheckResult := none
  deriving DecidableEq, Repr

/-- The final aggregation loop of `analyzeURL` (lines 627–651): one pass
over the recorded check results accumulating the `hasFailure`, `hasError`
and `hasReview` booleans. -/
def aggregateFlags (rs : List CheckResult) : Bool × Bool × Bool :=
  rs.foldl
    (fun acc r =>
      if r.status = .fail then (true, acc.2.1, acc.2.2)
      else if r.status = .error then (acc.1, true, acc.2.2)
      else if r.status = .review then (acc.1, acc.2.1, true)
      else acc)
    (false, false, false)

/-- The final status decision of `analyzeURL`: `fail` if any failure, else
`error` if any error, else `review` if any review, else `pass`. -/
def aggregateStatus (rs : List CheckResult) : Status :=
  let flags := aggregateFlags rs
  if flags.1 then .fail
  else if flags.2.1 then .error
  else if flags.2.2 then .review
  else .pass

/-- Phase 1 of `analyzeURL`: the redirect check.  `checkRedirect` parses
the original URL itself; when that parse fails (`parsed = none`) its
`try`/`catch` converts the `new URL` throw into an `error` result. -/
def redirectPhase (parsed : Option ParsedURL)
    (locHostname : String → Option String) (probe : ProbeOutcome) :
    Option CheckResult :=
  match parsed with
  | none =>
    some { status := .error, reason := "Redirect check failed",
           details := "Invalid URL" }
  | some p => checkRedirect (lowerString p.hostname) locHostname probe

/-- Phases 2 and 3 of `analyzeURL` plus the final aggregation.
`checksSoFar` holds the (possibly empty) redirect entry.  Phase 2 stores
the recency result on the `contentRecency` field and sets an interim
status (`fail`, or `review` when not already `fail`); the final
aggregation then unconditionally recomputes the status from the `checks`
map only, so the interim value is dead — it is reproduced here faithfully
and then overwritten exactly as in the source. -/
def laterPhases (url : String) (checksSoFar : List (String × CheckResult))
    (recencyResult hateSpeechResult plagiarismResult imagesResult
      adsResult : CheckResult) : AuditReport :=
  let statusAfterPhase2 : Status :=
    if recencyResult.status = .fail then .fail
    else if recencyResult.status = .review then .review
    else .pending
  let checks := checksSoFar ++
    [("hateSpeech", hateSpeechResult), ("plagiarism", plagiarismResult),
     ("images", imagesResult), ("ads", adsResult)]
  let finalStatus := aggregateStatus (checks.map Prod.snd)
  -- `statusAfterPhase2` is discarded by the source's final aggregation.
  let _ := statusAfterPhase2
  { url := url, status := finalStatus, checks := checks,
    contentRecency := some recencyResult }

/-- `analyzeURL` from `auditController.js`.  The effectful sub-checks are
inputs: `probe`/`locHostname` feed the redirect check, `recencyResult` is
the phase-2 outcome (already wrapped: a timeout or throw arrives here as
an `error` result), and the four phase-3 results likewise arrive wrapped. -/
def analyzeURL (parsed : Option ParsedURL) (url : String)
    (locHostname : String → Option String) (probe : ProbeOutcome)
    (recencyResult hateSpeechResult plagiarismResult imagesResult
      adsResult : CheckResult) : AuditReport :=
  match checkBannedWords parsed url with
  | some bannedWordsResult =>
    { url := url, status := .fail,
      checks := [("bannedWords", bannedWordsResult)] }
  | none =>
    match redirectPhase parsed locHostname probe with
    | some r =>
      if r.status = .fail then
        { url := url, status := .fail, checks := [("redirect", r)] }
      else
        laterPhases url [("redirect", r)] recencyResult hateSpeechResult
          plagiarismResult imagesResult adsResult
    | none =>
      laterPhases url [] recencyResult hateSpeechResult
        plagiarismResult imagesResult adsResult

/-! ## RecencyEvaluator (`contentRecencyChecker.js`)

`evaluateDates` receives the accumulated date evidence (JavaScript `Date`
values, i.e. millisecond timestamps) and the evaluation time `now`.  It
sorts descending, takes the first (newest) and last (oldest) entries,
converts the elapsed milliseconds to fractional days, and applies the
freshness rule.  The embedding uses `ℤ` millisecond timestamps and exact
`ℚ` day values.  The result's structured `dates`/`contentAge` payload is
omitted; status, reason and details are kept verbatim (`Math.round` is
JavaScript half-up rounding, which is Mathlib's `round`). -/

/-- Insert into a descending-sorted list of timestamps. -/
def insertDesc (x : ℤ) : List ℤ → List ℤ
  | [] => [x]
  | y :: ys => if x ≤ y then y :: insertDesc x ys else x :: y :: ys

/-- `dates.sort((a, b) => b - a)`: sort descending (newest first). -/
def sortDesc : List ℤ → List ℤ
  | [] => []
  | x :: xs => insertDesc x (sortDesc xs)

def evaluateDates (now : ℤ) (dates : List ℤ) : CheckResult :=
  let sorted := sortDesc dates
  let mostRecent := sorted.headD 0
  let oldest := sorted.getLastD 0
  let daysSinceRecent : ℚ := ((now - mostRecent : ℤ) : ℚ) / 86400000
  let daysSinceOldest : ℚ := ((now - oldest : ℤ) : ℚ) / 86400000
  if daysSinceRecent > 30 then
    let rounded := round daysSinceRecent
    { status := .fail,
      reason := "Lacking 4 months or recent content",
      details := "Most recent content is " ++ toString rounded ++
        " days old (must be less than 30 days)" }
  else if daysSinceOldest < 95 then
    let rounded := round daysSinceOldest
    { status := .fail,
      reason := "Lacking 4 months or recent content",
      details := "Oldest content is only " ++ toString rounded ++
        " days old (must be more than 95 days)" }
  else
    let recentRounded := round daysSinceRecent
    let oldestRounded := round daysSinceOldest
    { status := .pass,
      reason := "Content meets recency and historical requirements",
      details := "Content ranges from " ++ toString recentRounded ++ " to " ++
        toString oldestRounded ++ " days old" }

/-- The result `checkRecency` returns when, after all sources were
checked, no dates at all were collected (`contentRecencyChecker.js`
lines 238–245). -/
def noDatesResult : CheckResult :=
  { status := .fail,
    reason := "No dates found in any source",
    details := "Could not determine content recency" }

/-! ## RejectionCodeTable (`sqlGenerator` in the backend, `SQLGenerator`
in the browser extension)

Both classes build a JavaScript `Map` from literal entries; `Map`
preserves insertion order, `Map.has`/`Map.get` are exact key lookup, and
`for (const [key, code] of map)` iterates in insertion order.  We embed
each map as an association list in declaration order. -/

/-- The `rejectionMap` of the browser-extension `SQLGenerator`
(declaration order preserved). -/
def extensionRejectionMap : List (String × String) :=
  [ ("Banned word detected in URL", "261"),
    ("External redirect detected", "277"),
    ("Site failed to load", "298"),
    ("Geo-blocking detected", "298"),
    ("Content too old", "284"),
    ("No date information found", "298"),
    ("Unable to extract dates from content", "284"),
    ("Hate speech detected", "272"),
    ("Multiple instances of concerning content", "272"),
    ("Explicit harmful content detected", "272"),
    ("Content similarity above 85% threshold", "64"),
    ("Multiple paragraphs appear to be plagiarized", "64"),
    ("Unable to verify content originality", "64"),
    ("Adult content detected in images", "272"),
    ("Violent content detected in images", "272"),
    ("Inappropriate imagery detected", "272"),
    ("No ad implementation detected", "298"),
    ("Insufficient premium ad partners", "298"),
    ("Timeout during analysis", "298"),
    ("Unable to access site content", "298"),
    ("Technical error during analysis", "298") ]

/-- The `rejectionMap` of the backend `sqlGenerator` module (declaration
order preserved). -/
def backendRejectionMap : List (String × String) :=
  [ ("Banned word detected in URL", "261"),
    ("External redirect detected", "277"),
    ("Site failed to load", "298"),
    ("Geo-blocking detected", "298"),
    ("Content too old", "284"),
    ("Lacking 4 months or recent content", "284"),
    ("No date information found", "298"),
    ("Unable to extract dates from content", "284"),
    ("Hate speech detected", "272"),
    ("Multiple instances of concerning content", "272"),
    ("Explicit harmful content detected", "272"),
    ("Content similarity above 85% threshold", "64"),
    ("Multiple paragraphs appear to be plagiarized", "64"),
    ("Unable to verify content originality", "64"),
    ("Adult content detected in images", "272"),
    ("Violent content detected in images", "272"),
    ("Inappropriate imagery detected", "272"),
    ("Inappropriate image content detected", "272"),
    ("No ad implementation detected", "298"),
    ("No ad activity detected", "298"),
    ("Insufficient premium ad partners", "298"),
    ("Ad activity without premium networks", "298"),
    ("Limited premium ad networks", "298"),
    ("Timeout during analysis", "298"),
    ("Unable to access site content", "298"),
    ("Technical error during analysis", "298") ]

/-- `getRejectionCode` of the browser-extension `SQLGenerator`: exact map
lookup first, then the first key (in insertion order) contained in the
input as a substring, else the default `"298"`. -/
def getRejectionCode (rejectionMap : List (String × String))
    (details : String) : String :=
  match rejectionMap.lookup details with
  | some code => code
  | none =>
    match rejectionMap.find? (fun kc => strContains details kc.1) with
    | some kc => kc.2
    | none => "298"

/-- `getRejectionCode` of the backend `sqlGenerator`: identical logic, but
guarded by `if (!failureReason) return '';` — a falsy (empty) reason
returns the empty string, not `"298"`. -/
def getRejectionCodeBackend (rejectionMap : List (String × String))
    (failureReason : String) : String :=
  if failureReason = "" then ""
  else
    match rejectionMap.lookup failureReason with
    | some code => code
    | none =>
      match rejectionMap.find? (fun kc => strContains failureReason kc.1) with
      | some kc => kc.2
      | none => "298"

/-- Modelled from the spec's words (§6 rejection-code lookup): the code of
an exact key match if one exists, otherwise the code of the first key in
the table's fixed declaration order occurring as a substring of the
reason, otherwise the fallback code `"298"`.  Used as the spec side of the
C6 refinement. -/
def specRejectionLookup (table : List (String × String))
    (reason : String) : String :=
  match table.find? (fun kc => kc.1 == reason) with
  | some kc => kc.2
  | none =>
    match table.find? (fun kc => strContains reason kc.1) with
    | some kc => kc.2
    | none => "298"

/-! ## Audit entry point (`auditUrl` in `auditController.js`)

`auditUrl(req, res)` first validates the input with `new URL(url)`; a
throw is answered with an HTTP 400 `Invalid URL provided` response and
nothing else runs.  Otherwise the audit pipeline body runs (browser
launch, navigation, checks, storage — all effectful), producing either a
200 response with the audit body or a 500 response when it throws.  The
pipeline body is abstracted as a function argument `runAudit`. -/

inductive AuditHttpResponse (β : Type) where
  | ok (body : β)
  | badRequest (error : String)
  | serverError (error : String)
  deriving DecidableEq, Repr

def auditUrl {β : Type} (parsedUrl : Option ParsedURL)
    (runAudit : ParsedURL → Except String β) : AuditHttpResponse β :=
  match parsedUrl with
  | none => .badRequest "Invalid URL provided"
  | some u =>
    match runAudit u with
    | .ok body => .ok body
    | .error msg => .serverError ("Error during audit: " ++ msg)

/-! ## SimilarityChecker (`plagiarismChecker.js`)

`checkParagraphs` iterates over the selected paragraphs (already sliced to
`maxApiCalls` and truncated with `truncateText` before searching).  For
each paragraph the search/fetch/score round trip is effectful; its outcome
is an input: either a throw (caught and recorded as an `error` result) or
the list of per-candidate similarity scores with their matched text
(`checkSimilarity` returns `{similarityScore, matchedText}` objects;
`searchSimilarContent` returns `[]` on its own errors, which lands in the
no-candidates branch). -/

/-- A per-paragraph result object pushed by `checkParagraphs`.  JavaScript
objects need not carry every field: `status` is `none` where the source
builds an object without a `status` field (the best-candidate path pushes
`{similarityScore, matchedText, paragraph}` — no `status`, no
`matchedUrl`). -/
structure ParagraphResult where
  paragraph : String
  similarityScore : ℚ
  matchedText : Option String := none
  matchedUrl : Option String := none
  status : Option String := none
  reason : Option String := none
  deriving DecidableEq, Repr

inductive ParagraphOutcome where
  | candidates (scored : List (ℚ × String))
  | thrown (message : String)
  deriving DecidableEq, Repr

/-- One iteration of the `checkParagraphs` loop, given the truncated
paragraph text and the outcome of its search/score round trip. -/
def checkOneParagraph (truncatedText : String)
    (outcome : ParagraphOutcome) : ParagraphResult :=
  match outcome with
  | .thrown msg =>
    { paragraph := truncatedText, similarityScore := 0, matchedUrl := none,
      status := some "error",
      reason := some ("Error checking similarity: " ++ msg) }
  | .candidates scored =>
    match scored with
    | [] =>
      { paragraph := truncatedText, similarityScore := 0, matchedUrl := none,
        status := some "pass", reason := some "No similar content found" }
    | _ :: _ =>
      -- `reduce((max, r) => r.similarityScore > max.similarityScore ? r : max,
      --         { similarityScore: 0 })`, then `.paragraph = truncatedText`.
      let highest := scored.foldl
        (fun best c => if c.1 > best.1 then (c.1, some c.2) else best)
        ((0 : ℚ), (none : Option String))
      { paragraph := truncatedText, similarityScore := highest.1,
        matchedText := highest.2 }

/-- The `checkParagraphs` loop over the (pre-truncated, pre-sliced)
paragraph list. -/
def checkParagraphs (paragraphs : List (String × ParagraphOutcome)) :
    List ParagraphResult :=
  paragraphs.map (fun pc => checkOneParagraph pc.1 pc.2)

/-- `statusCounts[s]` of `evaluateResults` for a concrete status string
(the source accumulates a count object keyed by `result.status`). -/
def countStatus (results : List ParagraphResult) (s : String) : Nat :=
  (results.filter (fun r => r.status == some s)).length

/-- `evaluateResults` of `plagiarismChecker.js` (the structured `details`
payload — averages, per-excerpt summaries — is omitted; status and reason
are kept verbatim). -/
def evaluateResults (results : List ParagraphResult) : CheckResult :=
  if results.isEmpty then
    { status := .error, reason := "No results to evaluate",
      details := "Plagiarism check failed to produce any results" }
  else
    let failCount := countStatus results "fail"
    let reviewCount := countStatus results "review"
    let errorCount := countStatus results "error"
    if failCount > 0 then
      { status := .fail,
        reason := toString failCount ++
          " paragraph(s) detected as potential plagiarism",
        details := "" }
    else if reviewCount > 0 then
      { status := .review,
        reason := toString reviewCount ++
          " paragraph(s) need review for similarity",
        details := "" }
    else if errorCount > 0 then
      { status := .error,
        reason := toString errorCount ++
          " paragraph(s) encountered errors during checking",
        details := "" }
    else
      { status := .pass, reason := "No plagiarism detected", details := "" }

/-! ## Content post-processing and paragraph selection
(`extractContent` tail and `getRepresentativeParagraphs` in
`plagiarismChecker.js`)

The page fetch itself is effectful; the deterministic tail of
`extractContent` — `content.replace(/\s+/g, ' ').trim()` followed by
`truncateText(content, 500)` — and the paragraph selection are embedded
over character lists. -/

/-- The code points matched by the JavaScript regex class `\s`
(whitespace, including NBSP, BOM and the Unicode space separators). -/
def jsWhitespaceCodes : List Nat :=
  [9, 10, 11, 12, 13, 32, 160, 5760, 8192, 8193, 8194, 8195, 8196, 8197,
   8198, 8199, 8200, 8201, 8202, 8232, 8233, 8239, 8287, 12288, 65279]

def isJsSpace (c : Char) : Bool := jsWhitespaceCodes.contains c.toNat

/-- `content.replace(/\s+/g, ' ')`: each maximal whitespace run becomes a
single space. -/
def collapseWs : List Char → List Char
  | [] => []
  | c :: cs =>
    if isJsSpace c then ' ' :: collapseWs (cs.dropWhile isJsSpace)
    else c :: collapseWs cs
termination_by l => l.length
decreasing_by
  · have := (List.dropWhile_sublist (l := cs) isJsSpace).length_le
    simp only [List.length_cons]
    omega
  · simp

/-- JavaScript `String.prototype.trim`: strip whitespace from both ends. -/
def trimChars (l : List Char) : List Char :=
  ((l.dropWhile isJsSpace).reverse.dropWhile isJsSpace).reverse

/-- JavaScript `lastIndexOf` for a single character (`none` for `-1`). -/
def lastIndexOfChar (c : Char) (l : List Char) : Option Nat :=
  match l.reverse.findIdx? (fun x => x == c) with
  | none => none
  | some i => some (l.length - 1 - i)

/-- `truncateText(text, maxLength)` (identical in `plagiarismChecker.js`
and `hateSpeechChecker.js`): text at most `maxLength` long is returned
as is; otherwise the first `maxLength` characters are cut at the last
sentence-ending punctuation mark at a strictly positive index (plain cut
plus `"..."` when there is none). -/
def truncateText (maxLength : Nat) (text : List Char) : List Char :=
  if text.length ≤ maxLength then text
  else
    let truncated := text.take maxLength
    let indices :=
      ([lastIndexOfChar '.' truncated, lastIndexOfChar '?' truncated,
        lastIndexOfChar '!' truncated].filterMap id).filter (fun i => 0 < i)
    match indices.max? with
    | none => truncated ++ ['.', '.', '.']
    | some lastSentenceEnd => text.take (lastSentenceEnd + 1) ++ ['.', '.', '.']

/-- Membership in the regex class `[\s\d.,:;!?()[\]{}'"<>]` of the
paragraph filter (punctuation given by code point to keep the embedding
ASCII-clean). -/
def punctClassChar (c : Char) : Bool :=
  isJsSpace c || c.isDigit ||
  [(46 : Nat), 44, 58, 59, 33, 63, 40, 41, 91, 93, 123, 125, 39, 34,
   60, 62].contains c.toNat

/-- The regex `^[\s\d.,:;!?()[\]{}'"<>]+$`: a nonempty string made only of
class characters. -/
def isPunctOnly (l : List Char) : Bool :=
  !l.isEmpty && l.all punctClassChar

/-- After the leading `\n` of the separator regex `/\n\s*\n/`, `\s*\n`
greedily consumes whitespace up to a final newline; backtracking from the
maximal whitespace run means the match extends to the last newline inside
that run.  Returns the input remaining after the separator, or `none` if
the separator does not match here. -/
def sepRest (cs : List Char) : Option (List Char) :=
  let run := cs.takeWhile isJsSpace
  match run.reverse.findIdx? (fun x => x == '\n') with
  | none => none
  | some i => some (cs.drop (run.length - i))

/-- `content.split(/\n\s*\n/)`: scan left to right, emitting a piece at
every leftmost separator match. -/
def splitBlankAux : List Char → List Char → List (List Char)
  | acc, [] => [acc.reverse]
  | acc, c :: cs =>
    if c = '\n' then
      match h : sepRest cs with
      | some rest => acc.reverse :: splitBlankAux [] rest
      | none => splitBlankAux (c :: acc) cs
    else splitBlankAux (c :: acc) cs
termination_by _ l => l.length
decreasing_by
  · have hlen : rest.length ≤ cs.length := by
      simp only [sepRest] at h
      split at h
      · exact absurd h (by simp)
      · cases h
        rw [List.length_drop]
        omega
    simp only [List.length_cons]
    omega
  · simp
  · simp

def splitBlank (l : List Char) : List (List Char) := splitBlankAux [] l

/-- Insert into a list sorted by length descending (for the
`sort((a, b) => b.length - a.length)` call). -/
def insertByLenDesc (x : List Char) : List (List Char) → List (List Char)
  | [] => [x]
  | y :: ys => if x.length ≤ y.length then y :: insertByLenDesc x ys
               else x :: y :: ys

/-- `paragraphs.sort((a, b) => b.length - a.length)`. -/
def sortByLenDesc : List (List Char) → List (List Char)
  | [] => []
  | x :: xs => insertByLenDesc x (sortByLenDesc xs)

/-- `getRepresentativeParagraphs` of `plagiarismChecker.js`: split on
blank-line boundaries, keep paragraphs whose trimmed length exceeds 100
and that are not punctuation/digit-only, sort by length descending, take
the first `maxApiCalls`. -/
def getRepresentativeParagraphs (maxApiCalls : Nat) (content : List Char) :
    List (List Char) :=
  let paragraphs := (splitBlank content).filter
    (fun p => 100 < (trimChars p).length && !isPunctOnly p)
  if paragraphs.isEmpty then []
  else (sortByLenDesc paragraphs).take maxApiCalls

/-- The deterministic tail of `extractContent`: collapse whitespace runs,
trim, truncate to 500 characters. -/
def extractProcess (raw : List Char) : List Char :=
  truncateText 500 (trimChars (collapseWs raw))

/-! ## Spec-side characterization helpers for the policy filter

The amended first-match characterization flattens the category loop: the
candidates are the (category, word) pairs in declaration order, and for
each candidate the hostname is tested before the path before the full
URL. -/

/-- The per-word test of `checkBannedWords` as a standalone function:
hostname first, then path, then full URL, with the result objects of the
source. -/
def wordMatchResult (hostname pathname fullUrl category word : String) :
    Option CheckResult :=
  if strContains hostname word then
    some { status := .fail,
           reason := "Banned content detected (" ++ category ++ ")",
           details := "The domain contains banned term: " ++ word,
           category := some category }
  else if strContains pathname word then
    some { status := .fail,
           reason := "Banned content detected (" ++ category ++ ")",
           details := "The URL path contains banned term: " ++ word,
           category := some category }
  else if strContains fullUrl word then
    some { status := .fail,
           reason := "Banned content detected (" ++ category ++ ")",
           details := "The URL contains banned term: " ++ word,
           category := some category }
  else none

/-- All (category, word) candidates in scan order: categories in
declaration order, the words of each category in list order. -/
def bannedWordPairs : List (String × String) :=
  bannedCategories.flatMap (fun cw => cw.2.map (fun w => (cw.1, w)))

/-! ## General lemmas -/

/-- `List.lookup` is `find?` on the key, projected to the value. -/
theorem lookup_eq_find? (m : List (String × String)) (s : String) :
    m.lookup s = (m.find? (fun kc => kc.1 == s)).map Prod.snd := by
  induction m with
  | nil => rfl
  | cons kv m ih =>
    obtain ⟨k, v⟩ := kv
    by_cases hk : s = k
    · subst hk
      simp [List.lookup, List.find?]
    · have h1 : (s == k) = false := by simpa using hk
      have h2 : (k == s) = false := by simpa using Ne.symm hk
      simp [List.lookup, List.find?, h1, h2, ih]

/-- The derived `BEq` on `Status` is decided propositional equality. -/
theorem status_beq_eq_decide (s t : Status) : (s == t) = decide (s = t) := rfl

/-- The accumulator fold of `aggregateFlags`, generalized. -/
theorem aggregateFlags_foldl (rs : List CheckResult) (a b c : Bool) :
    rs.foldl
      (fun acc r =>
        if r.status = .fail then (true, acc.2.1, acc.2.2)
        else if r.status = .error then (acc.1, true, acc.2.2)
        else if r.status = .review then (acc.1, acc.2.1, true)
        else acc) (a, b, c) =
    (a || rs.any (fun r => r.status == .fail),
     b || rs.any (fun r => r.status == .error),
     c || rs.any (fun r => r.status == .review)) := by
  induction rs generalizing a b c with
  | nil => simp
  | cons r rs ih =>
    simp only [List.foldl_cons, List.any_cons]
    cases hs : r.status <;> simp [hs, ih, Bool.or_assoc, status_beq_eq_decide]

/-- The three aggregation flags are the three `any` queries. -/
theorem aggregateFlags_eq_any (rs : List CheckResult) :
    aggregateFlags rs =
      (rs.any (fun r => r.status == .fail),
       rs.any (fun r => r.status == .error),
       rs.any (fun r => r.status == .review)) := by
  simpa using aggregateFlags_foldl rs false false false

/-- `List.any` is invariant under permutation. -/
theorem any_eq_of_perm {l₁ l₂ : List CheckResult} (h : l₁.Perm l₂)
    (p : CheckResult → Bool) : l₁.any p = l₂.any p := by
  cases hb : l₂.any p
  · rw [List.any_eq_false] at hb ⊢
    intro x hx
    exact hb x (h.mem_iff.mp hx)
  · rw [List.any_eq_true] at hb ⊢
    obtain ⟨x, hx, hpx⟩ := hb
    exact ⟨x, h.mem_iff.mpr hx, hpx⟩

/-! ## Claim theorems -/

/-- C1 (code bug): a recorded recency `fail` does NOT set a fail floor.
`analyzeURL` stores the recency result on `results.contentRecency`
(outside `results.checks`) and the final aggregation recomputes the
overall status from `results.checks` alone, so an audit whose recency
check failed while the four concurrent checks passed comes out with
overall status `pass`, contradicting the claimed fail floor. -/
theorem recency_fail_floor_is_lost :
    analyzeURL (some ⟨"example.com", "/"⟩) "https://example.com/"
      (fun _ => none) (.response 200 none)
      ⟨.fail, "Lacking 4 months or recent content",
        "Oldest content is only 40 days old (must be more than 95 days)",
        none, none⟩
      ⟨.pass, "No hate speech detected", "", none, none⟩
      ⟨.pass, "No plagiarism detected", "", none, none⟩
      ⟨.pass, "No inappropriate images", "", none, none⟩
      ⟨.pass, "Sufficient ad partners", "", none, none⟩ =
    { url := "https://example.com/",
      status := .pass,
      checks :=
        [("hateSpeech", ⟨.pass, "No hate speech detected", "", none, none⟩),
         ("plagiarism", ⟨.pass, "No plagiarism detected", "", none, none⟩),
         ("images", ⟨.pass, "No inappropriate images", "", none, none⟩),
         ("ads", ⟨.pass, "Sufficient ad partners", "", none, none⟩)],
      contentRecency := some ⟨.fail, "Lacking 4 months or recent content",
        "Oldest content is only 40 days old (must be more than 95 days)",
        none, none⟩ } := by
  decide

/-- C2: when the policy check matches (banned term or banned TLD),
`analyzeURL` returns immediately: overall status `fail`, the `checks`
mapping holds only the `bannedWords` entry, and the result does not
depend on any of the network-backed check outcomes (they are universally
quantified and absent from the conclusion). -/
theorem banned_words_short_circuit
    (parsed : Option ParsedURL) (url : String)
    (locHostname : String → Option String) (probe : ProbeOutcome)
    (recencyResult hateSpeechResult plagiarismResult imagesResult
      adsResult r : CheckResult)
    (h : checkBannedWords parsed url = some r) :
    analyzeURL parsed url locHostname probe recencyResult hateSpeechResult
        plagiarismResult imagesResult adsResult =
      { url := url, status := .fail, checks := [("bannedWords", r)],
        contentRecency := none } := by
  simp [analyzeURL, h]

/-- Witness for C2 at a gambling-term URL. -/
theorem banned_words_short_circuit_witness :
    checkBannedWords (some ⟨"casino.example.com", "/"⟩)
        "https://casino.example.com/" =
      some { status := .fail, reason := "Banned content detected (gambling)",
             details := "The domain contains banned term: casino",
             category := some "gambling" } ∧
    analyzeURL (some ⟨"casino.example.com", "/"⟩) "https://casino.example.com/"
        (fun _ => none) (.response 200 none)
        ⟨.pass, "", "", none, none⟩ ⟨.pass, "", "", none, none⟩
        ⟨.pass, "", "", none, none⟩ ⟨.pass, "", "", none, none⟩
        ⟨.pass, "", "", none, none⟩ =
      { url := "https://casino.example.com/", status := .fail,
        checks := [("bannedWords",
          { status := .fail, reason := "Banned content detected (gambling)",
            details := "The domain contains banned term: casino",
            category := some "gambling" })],
        contentRecency := none } :=
  ⟨by decide,
   banned_words_short_circuit _ _ _ _ _ _ _ _ _ _ (by decide)⟩

/-- C5 (code bug): `checkParagraphs` never produces a per-excerpt `fail`
status.  The best-candidate path pushes an object with no `status` field
at all and no similarity threshold is ever compared, so `evaluateResults`
sees zero `fail` entries and reports overall `pass` even when an excerpt
matched a candidate with similarity score 1.  (The claim's second half —
an excerpt with no candidates counts as `pass` — does hold: see the
`candidates []` branch.) -/
theorem plagiarism_score_never_triggers_fail :
    (∀ inputs : List (String × ParagraphOutcome),
      (checkParagraphs inputs).all
        (fun r => !(r.status == some "fail")) = true) ∧
    (checkParagraphs [("Identical copied paragraph", .candidates [])]).all
      (fun r => r.status == some "pass") = true ∧
    evaluateResults (checkParagraphs
        [("Identical copied paragraph",
          .candidates [((1 : ℚ), "Identical copied paragraph")])]) =
      { status := .pass, reason := "No plagiarism detected", details := "" } := by
  refine ⟨?_, by decide, by decide⟩
  intro inputs
  rw [List.all_eq_true]
  intro r hr
  obtain ⟨pc, _, rfl⟩ := List.mem_map.mp hr
  obtain ⟨text, outcome⟩ := pc
  cases outcome with
  | thrown msg => simp [checkOneParagraph]
  | candidates scored =>
    cases scored with
    | nil => simp [checkOneParagraph]
    | cons c cs => simp [checkOneParagraph]

/-- C6 counterexample: the backend `getRejectionCode` returns the empty
string — not the fallback code `"298"` — for an empty failure reason
(the `if (!failureReason) return '';` guard), while the spec-side lookup
yields `"298"`.  The browser-extension variant does return `"298"`. -/
theorem rejection_code_empty_reason_mismatch :
    getRejectionCodeBackend backendRejectionMap "" = "" ∧
    specRejectionLookup backendRejectionMap "" = "298" ∧
    getRejectionCode extensionRejectionMap "" = "298" := by
  decide

/-- C6 (amended): for every failure reason the extension lookup — and for
every nonempty failure reason the backend lookup — equals the specified
deterministic procedure: exact key match first, else the first key in
declaration order occurring as a substring, else `"298"`.  Both sides are
pure functions of the reason string, so determinism across calls and
restarts is immediate. -/
theorem rejection_code_lookup_spec :
    (∀ reason : String,
      getRejectionCode extensionRejectionMap reason =
        specRejectionLookup extensionRejectionMap reason) ∧
    (∀ reason : String, reason ≠ "" →
      getRejectionCodeBackend backendRejectionMap reason =
        specRejectionLookup backendRejectionMap reason) := by
  have key : ∀ (m : List (String × String)) (s : String),
      (match m.lookup s with
       | some code => code
       | none =>
         match m.find? (fun kc => strContains s kc.1) with
         | some kc => kc.2
         | none => "298") = specRejectionLookup m s := by
    intro m s
    rw [lookup_eq_find?]
    cases h : m.find? (fun kc => kc.1 == s) <;>
      simp [specRejectionLookup, h]
  refine ⟨fun reason => ?_, fun reason hr => ?_⟩
  · simpa [getRejectionCode] using key extensionRejectionMap reason
  · simpa [getRejectionCodeBackend, hr] using key backendRejectionMap reason

/-- Witness for C6 at the backend's recency failure reason. -/
theorem rejection_code_lookup_spec_witness :
    ("Content too old" : String) ≠ "" ∧
    getRejectionCodeBackend backendRejectionMap "Content too old" =
      specRejectionLookup backendRejectionMap "Content too old" ∧
    getRejectionCodeBackend backendRejectionMap "Content too old" = "284" :=
  ⟨by decide, rejection_code_lookup_spec.2 "Content too old" (by decide),
   by decide⟩

/-- C7: `auditUrl` validates the URL before anything else: an unparseable
URL (`new URL` throw, modelled as `none`) is answered with the HTTP 400
`Invalid URL provided` response, and the response does not depend on the
audit pipeline body at all — the pipeline never starts and no audit
report is produced. -/
theorem audit_url_rejects_invalid_before_pipeline {β : Type}
    (runAudit runAuditAlt : ParsedURL → Except String β) :
    auditUrl none runAudit = .badRequest "Invalid URL provided" ∧
    auditUrl none runAudit = auditUrl none runAuditAlt :=
  ⟨rfl, rfl⟩

/-- C3: for an audit that reaches the aggregation phase, the overall
status is the aggregation of the recorded `checks` mapping; that
aggregation is exactly the claimed precedence (`fail` over `error` over
`review` over `pass`); and it is invariant under permutation of the
recorded results, i.e. independent of completion order. -/
theorem aggregation_precedence_order_independent :
    (∀ (parsed : Option ParsedURL) (url : String)
       (locHostname : String → Option String) (probe : ProbeOutcome)
       (recencyResult hateSpeechResult plagiarismResult imagesResult
         adsResult : CheckResult),
      checkBannedWords parsed url = none →
      (∀ r, redirectPhase parsed locHostname probe = some r →
        r.status ≠ .fail) →
      (analyzeURL parsed url locHostname probe recencyResult
          hateSpeechResult plagiarismResult imagesResult adsResult).status =
        aggregateStatus
          ((analyzeURL parsed url locHostname probe recencyResult
            hateSpeechResult plagiarismResult imagesResult
            adsResult).checks.map Prod.snd)) ∧
    (∀ rs : List CheckResult,
      (aggregateStatus rs = .fail ↔ ∃ r ∈ rs, r.status = .fail) ∧
      (aggregateStatus rs = .error ↔
        (∀ r ∈ rs, r.status ≠ .fail) ∧ ∃ r ∈ rs, r.status = .error) ∧
      (aggregateStatus rs = .review ↔
        (∀ r ∈ rs, r.status ≠ .fail ∧ r.status ≠ .error) ∧
          ∃ r ∈ rs, r.status = .review) ∧
      (aggregateStatus rs = .pass ↔
        ∀ r ∈ rs, r.status ≠ .fail ∧ r.status ≠ .error ∧
          r.status ≠ .review)) ∧
    (∀ rs₁ rs₂ : List CheckResult, rs₁.Perm rs₂ →
      aggregateStatus rs₁ = aggregateStatus rs₂) := by
  refine ⟨?_, ?_, ?_⟩
  · intro parsed url locHostname probe recencyResult hateSpeechResult
      plagiarismResult imagesResult adsResult hb hred
    cases hr : redirectPhase parsed locHostname probe with
    | none => simp [analyzeURL, hb, hr, laterPhases]
    | some r =>
      have hne := hred r hr
      simp [analyzeURL, hb, hr, hne, laterPhases]
  · intro rs
    simp only [aggregateStatus, aggregateFlags_eq_any]
    cases hf : rs.any (fun r => r.status == Status.fail) <;>
      cases he : rs.any (fun r => r.status == Status.error) <;>
        cases hv : rs.any (fun r => r.status == Status.review) <;>
          simp_all [List.any_eq_true, List.any_eq_false]
    · obtain ⟨x, hx, hxs⟩ := hv
      exact ⟨x, hx, fun _ => hxs⟩
    · obtain ⟨x, hx, hxs⟩ := hv
      exact ⟨x, hx, fun _ => hxs⟩
    · obtain ⟨x, hx, hxs⟩ := he
      exact ⟨x, hx, fun _ => hxs⟩
    · constructor
      · obtain ⟨x, hx, hxs⟩ := he
        exact ⟨x, hx, fun _ => hxs⟩
      · obtain ⟨x, hx, hxs⟩ := hv
        exact ⟨x, hx, fun _ _ => hxs⟩
  · intro rs₁ rs₂ hp
    simp only [aggregateStatus, aggregateFlags_eq_any,
      any_eq_of_perm hp (fun r => r.status == Status.fail),
      any_eq_of_perm hp (fun r => r.status == Status.error),
      any_eq_of_perm hp (fun r => r.status == Status.review)]

/-- Witness for C3: a clean URL whose audit reaches aggregation with one
`fail` and one `review` among the four concurrent checks aggregates to
`fail`, and swapping two recorded results leaves the aggregate unchanged. -/
theorem aggregation_precedence_witness :
    checkBannedWords (some ⟨"news.example.org", "/"⟩)
      "https://news.example.org/" = none ∧
    (analyzeURL (some ⟨"news.example.org", "/"⟩) "https://news.example.org/"
        (fun _ => none) (.response 200 none)
        ⟨.pass, "r", "", none, none⟩
        ⟨.fail, "h", "", none, none⟩ ⟨.review, "p", "", none, none⟩
        ⟨.pass, "i", "", none, none⟩ ⟨.pass, "a", "", none, none⟩).status =
      aggregateStatus
        ((analyzeURL (some ⟨"news.example.org", "/"⟩)
          "https://news.example.org/" (fun _ => none) (.response 200 none)
          ⟨.pass, "r", "", none, none⟩
          ⟨.fail, "h", "", none, none⟩ ⟨.review, "p", "", none, none⟩
          ⟨.pass, "i", "", none, none⟩
          ⟨.pass, "a", "", none, none⟩).checks.map Prod.snd) ∧
    aggregateStatus
        [⟨.fail, "h", "", none, none⟩, ⟨.review, "p", "", none, none⟩] =
      aggregateStatus
        [⟨.review, "p", "", none, none⟩, ⟨.fail, "h", "", none, none⟩] ∧
    aggregateStatus
        [⟨.fail, "h", "", none, none⟩, ⟨.review, "p", "", none, none⟩] =
      .fail ∧
    aggregateStatus
        [⟨.review, "p", "", none, none⟩, ⟨.pass, "i", "", none, none⟩] =
      .review :=
  ⟨by decide,
   aggregation_precedence_order_independent.1 _ _ _ _ _ _ _ _ _
     (by decide) (by intro r h; exact Option.noConfusion h),
   aggregation_precedence_order_independent.2.2 _ _ (List.Perm.swap _ _ _),
   by decide, by decide⟩

/-- C8: the redirect probe classification.  A 3xx response with no
`Location` header is `review`; a resolvable `Location` with a different
(lowercased) hostname is `fail` with the destination recorded; the same
hostname is `null` (implicit pass); a non-3xx status is `null`; and a
network-level failure is an `error` result carrying the failure message
— never a silent pass. -/
theorem redirect_probe_classification
    (originalHostname : String) (locHostname : String → Option String) :
    (∀ statusCode : Nat, 300 ≤ statusCode → statusCode < 400 →
      checkRedirect originalHostname locHostname
          (.response statusCode none) =
        some { status := .review, reason := "Redirect without destination",
               details := "The URL redirects (" ++ toString statusCode ++
                 ") but no destination was specified" }) ∧
    (∀ (statusCode : Nat) (loc rawHost : String),
      300 ≤ statusCode → statusCode < 400 →
      locHostname loc = some rawHost →
      lowerString rawHost ≠ originalHostname →
      checkRedirect originalHostname locHostname
          (.response statusCode (some loc)) =
        some { status := .fail, reason := "External redirect",
               details := "The URL redirects to an external domain: " ++
                 lowerString rawHost,
               redirectUrl := some loc }) ∧
    (∀ (statusCode : Nat) (loc rawHost : String),
      300 ≤ statusCode → statusCode < 400 →
      locHostname loc = some rawHost →
      lowerString rawHost = originalHostname →
      checkRedirect originalHostname locHostname
          (.response statusCode (some loc)) = none) ∧
    (∀ (statusCode : Nat) (location : Option String),
      ¬(300 ≤ statusCode ∧ statusCode < 400) →
      checkRedirect originalHostname locHostname
          (.response statusCode location) = none) ∧
    (∀ message : String,
      checkRedirect originalHostname locHostname (.netError message) =
        some { status := .error, reason := "Redirect check failed",
               details := message }) := by
  refine ⟨?_, ?_, ?_, ?_, ?_⟩
  · intro statusCode h1 h2
    simp [checkRedirect, h1, h2]
  · intro statusCode loc rawHost h1 h2 hloc hne
    simp [checkRedirect, h1, h2, hloc, hne]
  · intro statusCode loc rawHost h1 h2 hloc heq
    simp [checkRedirect, h1, h2, hloc, heq]
  · intro statusCode location hout
    simp [checkRedirect, hout]
  · intro message
    simp [checkRedirect]

/-- Witness for C8 on concrete probes. -/
theorem redirect_probe_classification_witness :
    checkRedirect "example.com" (fun _ => some "other.com")
        (.response 301 (some "https://other.com/x")) =
      some { status := .fail, reason := "External redirect",
             details := "The URL redirects to an external domain: " ++
               lowerString "other.com",
             redirectUrl := some "https://other.com/x" } ∧
    checkRedirect "example.com" (fun _ => some "EXAMPLE.com")
        (.response 302 (some "/x")) = none ∧
    checkRedirect "example.com" (fun _ => none) (.response 307 none) =
      some { status := .review, reason := "Redirect without destination",
             details := "The URL redirects (" ++ toString 307 ++
               ") but no destination was specified" } ∧
    checkRedirect "example.com" (fun _ => none) (.response 200 none) =
      none ∧
    checkRedirect "example.com" (fun _ => none)
        (.netError "socket hang up") =
      some { status := .error, reason := "Redirect check failed",
             details := "socket hang up" } :=
  ⟨(redirect_probe_classification "example.com" _).2.1 301
      "https://other.com/x" "other.com" (by decide) (by decide) rfl
      (by decide),
   (redirect_probe_classification "example.com" _).2.2.1 302 "/x"
      "EXAMPLE.com" (by decide) (by decide) rfl (by decide),
   (redirect_probe_classification "example.com" _).1 307 (by decide)
      (by decide),
   (redirect_probe_classification "example.com" _).2.2.2.1 200 none
      (by decide),
   (redirect_probe_classification "example.com" _).2.2.2.2
      "socket hang up"⟩

/-- The word loop is the first-some scan of `wordMatchResult` over the
word list. -/
theorem checkWordList_cons_eq (hostname pathname fullUrl category w :
    String) (ws : List String) :
    checkWordList hostname pathname fullUrl category (w :: ws) =
      match wordMatchResult hostname pathname fullUrl category w with
      | some r => some r
      | none => checkWordList hostname pathname fullUrl category ws := by
  unfold checkWordList wordMatchResult
  split_ifs <;> first | rfl | (cases ws <;> rfl)

theorem checkWordList_eq_findSome? (hostname pathname fullUrl category :
    String) (ws : List String) :
    checkWordList hostname pathname fullUrl category ws =
      ws.findSome?
        (fun w => wordMatchResult hostname pathname fullUrl category w) := by
  induction ws with
  | nil => rfl
  | cons w ws ih =>
    rw [List.findSome?_cons, checkWordList_cons_eq]
    cases hw : wordMatchResult hostname pathname fullUrl category w <;>
      simp [hw, ih]

/-- The category loop is the first-some scan of `wordMatchResult` over
the flattened (category, word) candidate list. -/
theorem checkCategories_eq_findSome? (hostname pathname fullUrl : String)
    (cats : List (String × List String)) :
    checkCategories hostname pathname fullUrl cats =
      (cats.flatMap (fun cw => cw.2.map (fun w => (cw.1, w)))).findSome?
        (fun cw =>
          wordMatchResult hostname pathname fullUrl cw.1 cw.2) := by
  induction cats with
  | nil => rfl
  | cons cw cats ih =>
    obtain ⟨category, ws⟩ := cw
    rw [List.flatMap_cons, List.findSome?_append, List.findSome?_map]
    simp only [checkCategories, checkWordList_eq_findSome?]
    cases h : ws.findSome?
        (fun w => wordMatchResult hostname pathname fullUrl category w) with
    | some r =>
      have hc : ws.findSome?
          ((fun cw : String × String =>
            wordMatchResult hostname pathname fullUrl cw.1 cw.2) ∘
            (fun w => (category, w))) = some r := h
      simp [hc]
    | none =>
      have hc : ws.findSome?
          ((fun cw : String × String =>
            wordMatchResult hostname pathname fullUrl cw.1 cw.2) ∘
            (fun w => (category, w))) = none := h
      simp [hc, ih]

/-- A hit in the word loop is a `fail` result tagged with its category. -/
theorem checkWordList_some (hostname pathname fullUrl category : String)
    (ws : List String) (r : CheckResult)
    (h : checkWordList hostname pathname fullUrl category ws = some r) :
    r.status = .fail ∧ r.category = some category := by
  induction ws with
  | nil => exact Option.noConfusion h
  | cons w ws ih =>
    unfold checkWordList at h
    split_ifs at h <;> first
      | (cases h; exact ⟨rfl, rfl⟩)
      | exact ih h

/-- A hit in the category loop is a `fail` result carrying a category. -/
theorem checkCategories_some (hostname pathname fullUrl : String)
    (cats : List (String × List String)) (r : CheckResult)
    (h : checkCategories hostname pathname fullUrl cats = some r) :
    r.status = .fail ∧ r.category.isSome = true := by
  induction cats with
  | nil => exact Option.noConfusion h
  | cons cw cats ih =>
    obtain ⟨category, ws⟩ := cw
    unfold checkCategories at h
    cases hw : checkWordList hostname pathname fullUrl category ws with
    | some r₀ =>
      rw [hw] at h
      cases h
      obtain ⟨h1, h2⟩ := checkWordList_some _ _ _ _ _ _ hw
      exact ⟨h1, by simp [h2]⟩
    | none =>
      rw [hw] at h
      exact ih h

/-- C9 counterexample: within one category (`adult`, which contains both
`xxx` and `porn`), a URL whose hostname matches `xxx` and whose path
matches `porn` is reported as a PATH match for `porn` — the loop iterates
term by term (hostname, path, full URL per term), so a path match for an
earlier term beats a hostname match for a later term, refuting the
claimed hostname-before-path priority within a category. -/
theorem banned_words_location_priority_counterexample :
    checkBannedWords (some ⟨"xxxhost.com", "/porn"⟩)
        "https://xxxhost.com/porn" =
      some { status := .fail, reason := "Banned content detected (adult)",
             details := "The URL path contains banned term: porn",
             category := some "adult" } ∧
    strContains (lowerString "xxxhost.com") "xxx" = true ∧
    bannedCategories.any (fun cw =>
      cw.1 == "adult" && cw.2.contains "xxx" && cw.2.contains "porn") =
      true := by
  decide

/-- C9 (amended): the policy filter is the first match of this fixed
order — the banned-TLD set against the last hostname label first, then
the (category, word) candidates in declaration order, where each
candidate tests the hostname, then the path, then the full URL; the fail
result carries the category (and the matched term in its details); a
parse failure or no match yields `null`. -/
theorem banned_words_first_match_characterization :
    (∀ urlString : String, checkBannedWords none urlString = none) ∧
    (∀ (p : ParsedURL) (urlString : String),
      bannedTLDs.contains
          (⟨(splitChar '.' [] (lowerString p.hostname).data).getLastD []⟩ :
            String) = true →
      checkBannedWords (some p) urlString =
        some { status := .fail, reason := "Banned TLD detected",
               details := "The domain uses a banned top-level domain: ." ++
                 (⟨(splitChar '.' []
                   (lowerString p.hostname).data).getLastD []⟩ : String),
               category := some "bannedTLD" }) ∧
    (∀ (p : ParsedURL) (urlString : String),
      bannedTLDs.contains
          (⟨(splitChar '.' [] (lowerString p.hostname).data).getLastD []⟩ :
            String) = false →
      checkBannedWords (some p) urlString =
        bannedWordPairs.findSome? (fun cw =>
          wordMatchResult (lowerString p.hostname) (lowerString p.pathname)
            (lowerString urlString) cw.1 cw.2)) ∧
    (∀ (parsed : Option ParsedURL) (urlString : String) (r : CheckResult),
      checkBannedWords parsed urlString = some r →
      r.status = .fail ∧ r.category.isSome = true) := by
  refine ⟨fun _ => rfl, ?_, ?_, ?_⟩
  · intro p urlString htld
    simp only [checkBannedWords]
    split_ifs
    rfl
  · intro p urlString htld
    simp only [checkBannedWords]
    split_ifs with hc
    · rw [htld] at hc
      exact absurd hc (by decide)
    · simpa [bannedWordPairs] using
        checkCategories_eq_findSome? (lowerString p.hostname)
          (lowerString p.pathname) (lowerString urlString) bannedCategories
  · intro parsed urlString r h
    cases parsed with
    | none => exact Option.noConfusion h
    | some p =>
      simp only [checkBannedWords] at h
      split_ifs at h with htld
      · cases h
        exact ⟨rfl, rfl⟩
      · exact checkCategories_some _ _ _ _ _ h

/-- Witness for C9 at a banned-TLD URL and at a term-match URL. -/
theorem banned_words_first_match_witness :
    bannedTLDs.contains
        (⟨(splitChar '.' []
          (lowerString "news.ru").data).getLastD []⟩ : String) = true ∧
    checkBannedWords (some ⟨"news.ru", "/"⟩) "https://news.ru/" =
      some { status := .fail, reason := "Banned TLD detected",
             details := "The domain uses a banned top-level domain: ." ++
               (⟨(splitChar '.' []
                 (lowerString "news.ru").data).getLastD []⟩ : String),
             category := some "bannedTLD" } ∧
    bannedTLDs.contains
        (⟨(splitChar '.' []
          (lowerString "xxxhost.com").data).getLastD []⟩ : String) =
      false ∧
    checkBannedWords (some ⟨"xxxhost.com", "/porn"⟩)
        "https://xxxhost.com/porn" =
      bannedWordPairs.findSome? (fun cw =>
        wordMatchResult (lowerString "xxxhost.com") (lowerString "/porn")
          (lowerString "https://xxxhost.com/porn") cw.1 cw.2) :=
  ⟨by decide,
   banned_words_first_match_characterization.2.1 ⟨"news.ru", "/"⟩
     "https://news.ru/" (by decide),
   by decide,
   banned_words_first_match_characterization.2.2.1 ⟨"xxxhost.com", "/porn"⟩
     "https://xxxhost.com/porn" (by decide)⟩

/-- `insertDesc` inserts, up to permutation. -/
theorem insertDesc_perm (x : ℤ) (l : List ℤ) :
    (insertDesc x l).Perm (x :: l) := by
  induction l with
  | nil => rfl
  | cons y ys ih =>
    unfold insertDesc
    split_ifs
    · exact ((ih.cons y).trans (List.Perm.swap x y ys))
    · rfl

/-- `sortDesc` is a permutation of its input. -/
theorem sortDesc_perm (l : List ℤ) : (sortDesc l).Perm l := by
  induction l with
  | nil => rfl
  | cons x xs ih =>
    exact (insertDesc_perm x (sortDesc xs)).trans (ih.cons x)

/-- `insertDesc` preserves descending sortedness. -/
theorem insertDesc_pairwise (x : ℤ) (l : List ℤ)
    (h : l.Pairwise (fun a b => b ≤ a)) :
    (insertDesc x l).Pairwise (fun a b => b ≤ a) := by
  induction l with
  | nil => simp [insertDesc]
  | cons y ys ih =>
    rw [List.pairwise_cons] at h
    obtain ⟨hy, hys⟩ := h
    unfold insertDesc
    split_ifs with hxy
    · rw [List.pairwise_cons]
      refine ⟨?_, ih hys⟩
      intro z hz
      rcases List.mem_cons.mp ((insertDesc_perm x ys).mem_iff.mp hz) with
        hz | hz
      · omega
      · exact hy z hz
    · rw [List.pairwise_cons]
      refine ⟨?_, List.pairwise_cons.mpr ⟨hy, hys⟩⟩
      intro z hz
      rcases List.mem_cons.mp hz with hz | hz
      · omega
      · have := hy z hz
        omega

/-- `sortDesc` sorts descending. -/
theorem sortDesc_pairwise (l : List ℤ) :
    (sortDesc l).Pairwise (fun a b => b ≤ a) := by
  induction l with
  | nil => simp [sortDesc]
  | cons x xs ih => exact insertDesc_pairwise x (sortDesc xs) ih

/-- In a descending-sorted nonempty list, the default-headed head is a
member and bounds every element from above. -/
theorem pairwise_headD_max (l : List ℤ) (hne : l ≠ [])
    (h : l.Pairwise (fun a b => b ≤ a)) :
    l.headD 0 ∈ l ∧ ∀ x ∈ l, x ≤ l.headD 0 := by
  cases l with
  | nil => exact absurd rfl hne
  | cons y ys =>
    rw [List.pairwise_cons] at h
    refine ⟨List.mem_cons_self y ys, ?_⟩
    intro x hx
    rcases List.mem_cons.mp hx with hx | hx
    · simp [hx]
    · simpa using h.1 x hx

/-- In a descending-sorted nonempty list, the default-ended last element
is a member and bounds every element from below. -/
theorem pairwise_getLastD_min (l : List ℤ) (hne : l ≠ [])
    (h : l.Pairwise (fun a b => b ≤ a)) :
    l.getLastD 0 ∈ l ∧ ∀ x ∈ l, l.getLastD 0 ≤ x := by
  induction l with
  | nil => exact absurd rfl hne
  | cons y ys ih =>
    rw [List.pairwise_cons] at h
    cases hys : ys with
    | nil => simp [hys]
    | cons z zs =>
      subst hys
      obtain ⟨hmem, hmin⟩ := ih (by simp) h.2
      rw [List.getLastD_cons]
      refine ⟨List.mem_cons_of_mem y hmem, ?_⟩
      intro x hx
      rcases List.mem_cons.mp hx with hx | hx
      · subst hx
        exact le_trans (hmin _ hmem) (h.1 _ hmem)
      · exact hmin x hx

/-- A prefix of the first summand is a prefix of the concatenation. -/
theorem charsStartWith_append (n : List Char) :
    ∀ m t : List Char, charsStartWith n m = true →
      charsStartWith n (m ++ t) = true := by
  induction n with
  | nil => intro m t _; rfl
  | cons a as ih =>
    intro m t h
    cases m with
    | nil => exact absurd h (by simp [charsStartWith])
    | cons b bs =>
      simp only [charsStartWith, Bool.and_eq_true] at h ⊢
      exact ⟨h.1, ih bs t h.2⟩

/-- A list starts with itself. -/
theorem charsStartWith_refl (n : List Char) :
    charsStartWith n n = true := by
  induction n with
  | nil => rfl
  | cons a as ih => simp [charsStartWith, ih]

/-- A prefix occurs as a substring. -/
theorem subOccurs_of_charsStartWith (n l : List Char)
    (h : charsStartWith n l = true) : subOccurs n l = true := by
  cases l with
  | nil =>
    cases n with
    | nil => rfl
    | cons a as => exact absurd h (by simp [charsStartWith])
  | cons c cs => simp [subOccurs, h]

/-- `(a ++ b).includes(n)` holds when `n` is a prefix of `a`. -/
theorem strContains_append_of_prefix (a b n : String)
    (h : charsStartWith n.toList a.toList = true) :
    strContains (a ++ b) n = true := by
  have hdata : (a ++ b).toList = a.toList ++ b.toList := rfl
  unfold strContains
  rw [hdata]
  exact subOccurs_of_charsStartWith _ _ (charsStartWith_append _ _ _ h)

/-- `evaluateDates` written as its three-way decision (the `let`s of the
source inlined). -/
theorem evaluateDates_eq (now : ℤ) (dates : List ℤ) :
    evaluateDates now dates =
      if ((now - (sortDesc dates).headD 0 : ℤ) : ℚ) / 86400000 > 30 then
        { status := .fail, reason := "Lacking 4 months or recent content",
          details := "Most recent content is " ++
            toString (round
              (((now - (sortDesc dates).headD 0 : ℤ) : ℚ) / 86400000)) ++
            " days old (must be less than 30 days)" }
      else if ((now - (sortDesc dates).getLastD 0 : ℤ) : ℚ) / 86400000 <
          95 then
        { status := .fail, reason := "Lacking 4 months or recent content",
          details := "Oldest content is only " ++
            toString (round
              (((now - (sortDesc dates).getLastD 0 : ℤ) : ℚ) /
                86400000)) ++
            " days old (must be more than 95 days)" }
      else
        { status := .pass,
          reason := "Content meets recency and historical requirements",
          details := "Content ranges from " ++
            toString (round
              (((now - (sortDesc dates).headD 0 : ℤ) : ℚ) / 86400000)) ++
            " to " ++
            toString (round
              (((now - (sortDesc dates).getLastD 0 : ℤ) : ℚ) /
                86400000)) ++
            " days old" } := rfl

/-- C4 counterexample: the two failure modes carry the SAME `reason`
string.  A single 45-day-old date fails the "too new" branch; a pair of
5- and 40-day-old dates fails the "lacks history" branch; both results
have reason `Lacking 4 months or recent content` — the reason does not
distinguish the two modes (only the `details` string does). -/
theorem recency_fail_reasons_not_distinguished :
    (evaluateDates 0 [(-3888000000 : ℤ)]).status = .fail ∧
    (evaluateDates 0 [(-432000000 : ℤ), (-3456000000 : ℤ)]).status =
      .fail ∧
    (evaluateDates 0 [(-3888000000 : ℤ)]).reason =
      (evaluateDates 0 [(-432000000 : ℤ), (-3456000000 : ℤ)]).reason := by
  have hc1 : ((0 - (sortDesc [(-3888000000 : ℤ)]).headD 0 : ℤ) : ℚ) /
      86400000 > 30 := by
    norm_num [sortDesc, insertDesc]
  have hc2 : ¬(((0 - (sortDesc [(-432000000 : ℤ),
      (-3456000000 : ℤ)]).headD 0 : ℤ) : ℚ) / 86400000 > 30) := by
    norm_num [sortDesc, insertDesc]
  have hc3 : ((0 - (sortDesc [(-432000000 : ℤ),
      (-3456000000 : ℤ)]).getLastD 0 : ℤ) : ℚ) / 86400000 < 95 := by
    norm_num [sortDesc, insertDesc]
  rw [evaluateDates_eq, evaluateDates_eq, if_pos hc1, if_neg hc2,
    if_pos hc3]
  exact ⟨rfl, rfl, rfl⟩

/-- C4 (amended): over a nonempty date set, the evaluation passes iff
some date is at most 30 days old and some date is at least 95 days old
(i.e. the newest is fresh enough and the oldest is old enough), with
equality at 30 and 95 passing; both failure modes share the reason
`Lacking 4 months or recent content` and are distinguished only by their
`details` text; the no-dates result of `checkRecency` uses the distinct
reason `No dates found in any source`. -/
theorem recency_rule_characterization :
    (∀ (now d : ℤ) (ds : List ℤ),
      (evaluateDates now (d :: ds)).status = .pass ↔
        (∃ x ∈ d :: ds, ((now - x : ℤ) : ℚ) / 86400000 ≤ 30) ∧
        (∃ x ∈ d :: ds, 95 ≤ ((now - x : ℤ) : ℚ) / 86400000)) ∧
    (∀ (now d : ℤ) (ds : List ℤ),
      (∀ x ∈ d :: ds, 30 < ((now - x : ℤ) : ℚ) / 86400000) →
      (evaluateDates now (d :: ds)).status = .fail ∧
      (evaluateDates now (d :: ds)).reason =
        "Lacking 4 months or recent content" ∧
      strContains (evaluateDates now (d :: ds)).details
        "Most recent content is" = true) ∧
    (∀ (now d : ℤ) (ds : List ℤ),
      (∃ x ∈ d :: ds, ((now - x : ℤ) : ℚ) / 86400000 ≤ 30) →
      (∀ x ∈ d :: ds, ((now - x : ℤ) : ℚ) / 86400000 < 95) →
      (evaluateDates now (d :: ds)).status = .fail ∧
      (evaluateDates now (d :: ds)).reason =
        "Lacking 4 months or recent content" ∧
      strContains (evaluateDates now (d :: ds)).details
        "Oldest content is only" = true) ∧
    (noDatesResult.status = .fail ∧
     noDatesResult.reason = "No dates found in any source" ∧
     noDatesResult.reason ≠ "Lacking 4 months or recent content") := by
  have hane : ∀ d : ℤ, ∀ ds : List ℤ, sortDesc (d :: ds) ≠ [] := by
    intro d ds hnil
    have hlen := (sortDesc_perm (d :: ds)).length_eq
    rw [hnil] at hlen
    simp at hlen
  have hbound : ∀ (now d : ℤ) (ds : List ℤ),
      (sortDesc (d :: ds)).headD 0 ∈ d :: ds ∧
      (∀ x ∈ d :: ds, x ≤ (sortDesc (d :: ds)).headD 0) ∧
      (sortDesc (d :: ds)).getLastD 0 ∈ d :: ds ∧
      (∀ x ∈ d :: ds, (sortDesc (d :: ds)).getLastD 0 ≤ x) := by
    intro now d ds
    obtain ⟨hm1, hm2⟩ :=
      pairwise_headD_max _ (hane d ds) (sortDesc_pairwise (d :: ds))
    obtain ⟨hl1, hl2⟩ :=
      pairwise_getLastD_min _ (hane d ds) (sortDesc_pairwise (d :: ds))
    have hperm := sortDesc_perm (d :: ds)
    exact ⟨hperm.mem_iff.mp hm1,
      fun x hx => hm2 x (hperm.mem_iff.mpr hx),
      hperm.mem_iff.mp hl1,
      fun x hx => hl2 x (hperm.mem_iff.mpr hx)⟩
  have hanti : ∀ (now x y : ℤ), x ≤ y →
      ((now - y : ℤ) : ℚ) / 86400000 ≤ ((now - x : ℤ) : ℚ) / 86400000 := by
    intro now x y hxy
    have h1 : (now - y : ℤ) ≤ (now - x : ℤ) := by omega
    have h2 : ((now - y : ℤ) : ℚ) ≤ ((now - x : ℤ) : ℚ) := by
      exact_mod_cast h1
    have hpos : (0 : ℚ) < 86400000 := by norm_num
    exact (div_le_div_right hpos).mpr h2
  refine ⟨?_, ?_, ?_, by decide⟩
  · intro now d ds
    obtain ⟨hMmem, hMmax, hmmem, hmmin⟩ := hbound now d ds
    rw [evaluateDates_eq]
    split_ifs with h30 h95
    · constructor
      · intro h
        simp at h
      · rintro ⟨⟨x, hx, hxage⟩, -⟩
        have hle := hanti now x ((sortDesc (d :: ds)).headD 0) (hMmax x hx)
        exact absurd h30 (not_lt.mpr (le_trans hle hxage))
    · constructor
      · intro h
        simp at h
      · rintro ⟨-, ⟨x, hx, hxage⟩⟩
        have hle := hanti now ((sortDesc (d :: ds)).getLastD 0) x
          (hmmin x hx)
        exact absurd h95 (not_lt.mpr (le_trans hxage hle))
    · constructor
      · intro _
        push_neg at h30 h95
        exact ⟨⟨(sortDesc (d :: ds)).headD 0, hMmem, h30⟩,
          ⟨(sortDesc (d :: ds)).getLastD 0, hmmem, h95⟩⟩
      · intro _
        rfl
  · intro now d ds hall
    obtain ⟨hMmem, hMmax, hmmem, hmmin⟩ := hbound now d ds
    have h30 : ((now - (sortDesc (d :: ds)).headD 0 : ℤ) : ℚ) /
        86400000 > 30 := hall _ hMmem
    rw [evaluateDates_eq, if_pos h30]
    refine ⟨rfl, rfl, ?_⟩
    exact strContains_append_of_prefix _ _ _
      (charsStartWith_append _ _ _ (by decide))
  · intro now d ds hrecent hall
    obtain ⟨hMmem, hMmax, hmmem, hmmin⟩ := hbound now d ds
    have h30 : ¬(((now - (sortDesc (d :: ds)).headD 0 : ℤ) : ℚ) /
        86400000 > 30) := by
      obtain ⟨x, hx, hxage⟩ := hrecent
      have := hanti now x ((sortDesc (d :: ds)).headD 0) (hMmax x hx)
      push_neg
      linarith
    have h95 : ((now - (sortDesc (d :: ds)).getLastD 0 : ℤ) : ℚ) /
        86400000 < 95 := hall _ hmmem
    rw [evaluateDates_eq, if_neg h30, if_pos h95]
    refine ⟨rfl, rfl, ?_⟩
    exact strContains_append_of_prefix _ _ _
      (charsStartWith_append _ _ _ (by decide))

/-- Witness for C4: exact 30/95-day boundary ages pass; a 45-day-old
single date yields the shared fail reason; 5- and 40-day-old dates yield
the lacks-history details marker. -/
theorem recency_rule_witness :
    (evaluateDates 0 [(-2592000000 : ℤ), (-8208000000 : ℤ)]).status =
      .pass ∧
    (evaluateDates 0 [(-3888000000 : ℤ)]).reason =
      "Lacking 4 months or recent content" ∧
    strContains
      (evaluateDates 0 [(-432000000 : ℤ), (-3456000000 : ℤ)]).details
      "Oldest content is only" = true :=
  ⟨(recency_rule_characterization.1 0 (-2592000000) [(-8208000000)]).mpr
      ⟨⟨-2592000000, by simp, by norm_num⟩,
       ⟨-8208000000, by simp, by norm_num⟩⟩,
   ((recency_rule_characterization.2.1 0 (-3888000000) []) (by
      intro x hx
      rw [List.mem_singleton] at hx
      subst hx
      norm_num)).2.1,
   ((recency_rule_characterization.2.2.1 0 (-432000000) [(-3456000000)])
      ⟨-432000000, by simp, by norm_num⟩
      (by
        intro x hx
        rcases List.mem_cons.mp hx with hx | hx
        · subst hx
          norm_num
        · rw [List.mem_singleton] at hx
          subst hx
          norm_num)).2.2⟩

/-- Whitespace collapsing never emits a newline: every output character
is either a space or a non-whitespace input character. -/
theorem collapseWs_no_newline (l : List Char) : '\n' ∉ collapseWs l := by
  induction l using collapseWs.induct with
  | case1 => simp [collapseWs]
  | case2 c cs hsp ih =>
    rw [collapseWs, if_pos hsp]
    intro hmem
    rcases List.mem_cons.mp hmem with h1 | h1
    · exact absurd h1 (by decide)
    · exact ih h1
  | case3 c cs hsp ih =>
    rw [collapseWs, if_neg hsp]
    intro hmem
    rcases List.mem_cons.mp hmem with h1 | h1
    · subst h1
      exact hsp (by decide)
    · exact ih h1

/-- Trimming only removes characters. -/
theorem trimChars_subset (l : List Char) (x : Char)
    (h : x ∈ trimChars l) : x ∈ l := by
  unfold trimChars at h
  rw [List.mem_reverse] at h
  have h1 := (List.dropWhile_sublist _).subset h
  rw [List.mem_reverse] at h1
  exact (List.dropWhile_sublist _).subset h1

/-- Truncation only keeps input characters or adds ellipsis dots. -/
theorem truncateText_mem (maxLength : Nat) (l : List Char) (x : Char)
    (h : x ∈ truncateText maxLength l) : x ∈ l ∨ x = '.' := by
  unfold truncateText at h
  split_ifs at h
  · exact Or.inl h
  · dsimp only at h
    split at h
    · rcases List.mem_append.mp h with h1 | h1
      · exact Or.inl ((List.take_sublist _ _).subset h1)
      · right
        simpa using h1
    · rcases List.mem_append.mp h with h1 | h1
      · exact Or.inl ((List.take_sublist _ _).subset h1)
      · right
        simpa using h1

/-- A found last index lies inside the list. -/
theorem lastIndexOfChar_lt (c : Char) (l : List Char) (i : Nat)
    (h : lastIndexOfChar c l = some i) : i < l.length := by
  unfold lastIndexOfChar at h
  cases hf : l.reverse.findIdx? (fun x => x == c) with
  | none =>
    rw [hf] at h
    exact Option.noConfusion h
  | some j =>
    rw [hf] at h
    cases h
    have hne : l ≠ [] := by
      intro hnil
      subst hnil
      simp [List.findIdx?] at hf
    have hpos : 0 < l.length := List.length_pos.mpr hne
    omega

/-- Truncation to `maxLength` characters yields at most
`maxLength + 3` characters. -/
theorem truncateText_length (maxLength : Nat) (l : List Char) :
    (truncateText maxLength l).length ≤ maxLength + 3 := by
  unfold truncateText
  split_ifs with hlen
  · omega
  · dsimp only
    split
    · simp only [List.length_append, List.length_take, List.length_cons,
        List.length_nil]
      omega
    · next i hmax =>
      have hmem : i ∈ ([lastIndexOfChar '.' (l.take maxLength),
          lastIndexOfChar '?' (l.take maxLength),
          lastIndexOfChar '!' (l.take maxLength)].filterMap id).filter
            (fun j => decide (0 < j)) :=
        List.max?_mem (fun a b => max_choice a b) hmax
      rw [List.mem_filter] at hmem
      obtain ⟨o, ho, hoi⟩ := List.mem_filterMap.mp hmem.1
      have hio : o = some i := by simpa using hoi
      simp only [List.mem_cons, List.not_mem_nil, or_false] at ho
      have hi : i < (l.take maxLength).length := by
        rcases ho with ho | ho | ho
        all_goals
          rw [ho] at hio
          exact lastIndexOfChar_lt _ _ _ hio
      have hi2 : i < maxLength := by
        rw [List.length_take] at hi
        omega
      simp only [List.length_append, List.length_take, List.length_cons,
        List.length_nil]
      omega

/-- On newline-free input the blank-line split never fires. -/
theorem splitBlankAux_no_newline (l : List Char)
    (h : ∀ c ∈ l, c ≠ '\n') :
    ∀ acc : List Char, splitBlankAux acc l = [acc.reverse ++ l] := by
  induction l with
  | nil =>
    intro acc
    simp [splitBlankAux]
  | cons c cs ih =>
    intro acc
    have hc : c ≠ '\n' := h c (List.mem_cons_self c cs)
    rw [splitBlankAux, if_neg hc,
      ih (fun x hx => h x (List.mem_cons_of_mem _ hx)) (c :: acc)]
    simp

/-- The processed content contains no newline. -/
theorem extractProcess_no_newline (raw : List Char) :
    ∀ c ∈ extractProcess raw, c ≠ '\n' := by
  intro c hc heq
  subst heq
  unfold extractProcess at hc
  rcases truncateText_mem _ _ _ hc with h | h
  · exact collapseWs_no_newline _ (trimChars_subset _ _ h)
  · exact absurd h (by decide)

/-- C10: after `extractContent`'s whitespace collapsing and 500-character
truncation, the processed text has no blank-line boundary left, so
`getRepresentativeParagraphs` selects at most one excerpt — the processed
text itself — and that text is at most 503 characters long (so the
excerpt lies within the first 503 characters of the extracted page
text).  This holds for every paragraph cap, not just the default 2. -/
theorem plagiarism_single_excerpt (raw : List Char) (maxApiCalls : Nat) :
    (getRepresentativeParagraphs maxApiCalls (extractProcess raw)).length
      ≤ 1 ∧
    (getRepresentativeParagraphs maxApiCalls
        (extractProcess raw)).all
      (fun p => p == extractProcess raw) = true ∧
    (extractProcess raw).length ≤ 503 := by
  have hnn := extractProcess_no_newline raw
  have hsplit : splitBlank (extractProcess raw) = [extractProcess raw] := by
    unfold splitBlank
    simpa using splitBlankAux_no_newline _ hnn []
  have hlen : (extractProcess raw).length ≤ 503 := by
    unfold extractProcess
    have := truncateText_length 500 (trimChars (collapseWs raw))
    omega
  have hgr : getRepresentativeParagraphs maxApiCalls (extractProcess raw)
      = [] ∨
      getRepresentativeParagraphs maxApiCalls (extractProcess raw) =
        List.take maxApiCalls [extractProcess raw] := by
    unfold getRepresentativeParagraphs
    rw [hsplit]
    simp only [List.filter_cons, List.filter_nil]
    split_ifs with hfa hemp hemp
    · exact absurd hemp (by simp)
    · right
      rfl
    · left
      rfl
    · exact absurd (by simp : ([] : List (List Char)).isEmpty = true) hemp
  rcases hgr with hgr | hgr <;> rw [hgr]
  · exact ⟨by simp, by simp, hlen⟩
  · refine ⟨?_, ?_, hlen⟩
    · have := List.length_take maxApiCalls [extractProcess raw]
      simp only [List.length_singleton] at this
      omega
    · rw [List.all_eq_true]
      intro p hp
      have hp1 : p ∈ [extractProcess raw] :=
        (List.take_sublist _ _).subset hp
      rw [List.mem_singleton] at hp1
      subst hp1
      exact beq_self_eq_true _
